import Mathlib

/-!
Verification development for the plugin resolution and installation pipeline
implemented in `docker/download-plugins-manifest.py`.

The Python source is shallowly embedded as follows:
* manifest records and release entries become structures whose fields are
  `Option String` (a Python `dict` key that may be absent);
* `parse_version`, `get_highest_version`, `find_image_file` and the
  `meta.json` synthesis in `create_meta_json` are translated as pure
  functions; Python string splitting / integer parsing / `str.replace`
  are re-implemented structurally on `List Char` so that everything
  reduces in the kernel;
* a Python call that may raise an uncaught exception returns `PyResult`;
* file-system effects of the installers (scratch archive, destination
  directory) are a small explicit state `FSt`, and external outcomes
  (network transfer, archive extraction, environment-file append) are
  oracle records (`NetErr`, `IOEff`, `CTEff`, `EnhEff`) threaded through
  state-passing translations of `download_file`, `install_plugin`,
  `install_customtabs_plugin`, `install_enhanced_plugin`,
  `install_meilisearch_plugin` and `main`.
-/

/-- Result of a Python call that can raise an uncaught exception:
`exn` models the exception escaping the call. -/
inductive PyResult (α : Type) where
  | exn : PyResult α
  | ok (a : α) : PyResult α
deriving DecidableEq

/-- A release entry of a catalog record (`versions` list element of a
manifest plugin, a Python dict).  Each field is `none` when the key is
absent from the dict. -/
structure ReleaseEntry where
  version : Option String
  targetAbi : Option String
  sourceUrl : Option String
  changelog : Option String
  timestamp : Option String
deriving DecidableEq

/-- A catalog record (one plugin object of `manifest.json`, a Python
dict).  Each field is `none` when the key is absent. -/
structure CatalogRecord where
  guid : Option String
  name : Option String
  description : Option String
  overview : Option String
  owner : Option String
  category : Option String
  versions : Option (List ReleaseEntry)
deriving DecidableEq

/-- Split a character list at every `'.'`, mirroring Python
`version_str.split('.')` (so `"".split('.') == ['']` and
`"10.".split('.') == ['10', '']`). -/
def splitOnDot : List Char → List (List Char)
  | [] => [[]]
  | c :: cs =>
    if c = '.' then [] :: splitOnDot cs
    else
      match splitOnDot cs with
      | [] => [[c]]
      | r :: rs => (c :: r) :: rs

/-- Value of a decimal digit character, `none` for any other character. -/
def digitVal (c : Char) : Option Nat :=
  if '0' ≤ c ∧ c ≤ '9' then some (c.toNat - '0'.toNat) else none

/-- Accumulate a decimal number over a digit list; `none` as soon as a
non-digit appears. -/
def parseNatDigits : List Char → Nat → Option Nat
  | [], acc => some acc
  | c :: cs, acc =>
    match digitVal c with
    | none => none
    | some d => parseNatDigits cs (acc * 10 + d)

/-- Python `int(x)` on one dot-separated component: an optional sign
followed by at least one decimal digit; `none` models `int` raising
`ValueError`. -/
def parseIntComp : List Char → Option Int
  | [] => none
  | '-' :: rest =>
    match rest with
    | [] => none
    | _ :: _ => (parseNatDigits rest 0).map (fun n => -(n : Int))
  | '+' :: rest =>
    match rest with
    | [] => none
    | _ :: _ => (parseNatDigits rest 0).map (fun n => (n : Int))
  | cs => (parseNatDigits cs 0).map (fun n => (n : Int))

/-- `mapOpt f l` maps `f` over `l`, failing if any element fails
(Python: the first raising element propagates). -/
def mapOpt {α β : Type} (f : α → Option β) : List α → Option (List β)
  | [] => some []
  | a :: as =>
    match f a, mapOpt f as with
    | some b, some bs => some (b :: bs)
    | _, _ => none

/-- `parse_version`: `tuple(int(x) for x in version_str.split('.'))`.
`none` models the uncaught `ValueError` from `int` on a malformed
component. -/
def parse_version (s : String) : Option (List Int) :=
  mapOpt parseIntComp (splitOnDot s.data)

/-- Python tuple comparison `a < b` on integer tuples: lexicographic on
components, a strict prefix being smaller. -/
def tupleLt : List Int → List Int → Bool
  | [], [] => false
  | [], _ :: _ => true
  | _ :: _, [] => false
  | a :: as, b :: bs =>
    if a < b then true
    else if b < a then false
    else tupleLt as bs

/-- Sort key used by `get_highest_version`:
`parse_version(v['targetAbi'])`, with `[]` as an (unreached under the
parse-success guard) default. -/
def abiKey (v : ReleaseEntry) : List Int :=
  (v.targetAbi.bind parse_version).getD []

/-- Stable descending insertion: the new element `x` (earlier in the
input) is placed before every element whose key is not above `x`'s, so
equal keys keep input order — the result of Python's stable
`sorted(..., reverse=True)`. -/
def insertDesc {α : Type} (key : α → List Int) (x : α) : List α → List α
  | [] => [x]
  | y :: ys =>
    if tupleLt (key x) (key y) then y :: insertDesc key x ys
    else x :: y :: ys

/-- Stable descending sort by `key`, same result as Python
`sorted(l, key=key, reverse=True)`. -/
def sortDescBy {α : Type} (key : α → List Int) : List α → List α
  | [] => []
  | x :: xs => insertDesc key x (sortDescBy key xs)

/-- Result of `get_highest_version`: `raised` models an uncaught
exception (a `targetAbi` missing or not parsing as a dotted integer
tuple, or the chosen entry missing `version`/`sourceUrl` when the
function formats its status lines); `notFound` is the `None, None`
return; `found` carries the chosen release entry and its record. -/
inductive SelectionResult where
  | raised : SelectionResult
  | notFound : SelectionResult
  | found (best : ReleaseEntry) (plugin : CatalogRecord) : SelectionResult
deriving DecidableEq

/-- `get_highest_version(manifest, guid, plugin_name)`: finds the first
record whose `guid` equals the requested one, returns `notFound` when
absent or when its `versions` list is missing/empty, otherwise sorts the
versions by parsed `targetAbi` descending (stable) and returns the first
element; key computation models Python evaluating
`parse_version(v['targetAbi'])` for every entry, raising on any failure. -/
def get_highest_version (manifest : List CatalogRecord) (guid : String) :
    SelectionResult :=
  match manifest.find? (fun p => p.guid == some guid) with
  | none => .notFound
  | some plugin =>
    match plugin.versions.getD [] with
    | [] => .notFound
    | v0 :: vs =>
      match (v0 :: vs).all (fun v => (v.targetAbi.bind parse_version).isSome) with
      | false => .raised
      | true =>
        match ((sortDescBy abiKey (v0 :: vs)).headD v0).version,
              ((sortDescBy abiKey (v0 :: vs)).headD v0).sourceUrl with
        | some _, some _ => .found ((sortDescBy abiKey (v0 :: vs)).headD v0) plugin
        | _, _ => .raised

/-- Where a failing transfer in `download_file` goes wrong:
`errBeforeOpen` — `urlopen` (or the `open` itself) raised before the
scratch file was created; `errAfterOpen` — `response.read()` or the
write raised after `open(dest_path, 'wb')` already created/truncated the
scratch file. -/
inductive NetErr where
  | errBeforeOpen : NetErr
  | errAfterOpen : NetErr
deriving DecidableEq

/-- `download_file(url, dest_path)` as a transformer of the
scratch-file-exists flag: takes the transfer outcome and whether the
scratch file already existed, returns (scratch exists after, returned
success).  Every exception is caught and turned into `False`; no cleanup
of the scratch file is attempted. -/
def download_file_fs : Option NetErr → Bool → Bool × Bool
  | some .errBeforeOpen, prev => (prev, false)
  | some .errAfterOpen, _ => (true, false)
  | none, _ => (true, true)

/-- Per-plugin file-system state: whether the scratch archive
(`/tmp/<name>.zip`) exists and whether the destination directory
(`<plugin_dir>/<name>_<version>`) exists. -/
structure FSt where
  tmp : Bool
  dest : Bool
deriving DecidableEq

/-- External outcomes of one `install_plugin` attempt after selection:
the transfer outcome, whether `extractall` succeeds, and whether the
`/etc/environment` append succeeds (its failure raises inside the `try`
block). -/
structure IOEff where
  downloadErr : Option NetErr
  extractOk : Bool
  envOk : Bool
deriving DecidableEq

/-- `install_plugin(manifest, plugin_name, guid, plugin_dir)`:
selection (outside any `try`, so a raise escapes, `PyResult.exn`), then
download to the scratch archive, `target_dir.mkdir(parents=True,
exist_ok=True)`, and the `try` block: `extractall`, `os.remove(temp_zip)`,
`create_meta_json` (never raises), `/etc/environment` append; the
`except` handler removes `target_dir` whenever it exists and the scratch
archive whenever it exists, then returns `False`. -/
def install_plugin_run (manifest : List CatalogRecord) (guid : String)
    (e : IOEff) (s : FSt) : PyResult (FSt × Bool) :=
  match get_highest_version manifest guid with
  | .raised => .exn
  | .notFound => .ok (s, false)
  | .found _ _ =>
    match download_file_fs e.downloadErr s.tmp with
    | (tmp1, false) => .ok ({ s with tmp := tmp1 }, false)
    | (_, true) =>
      if e.extractOk then
        if e.envOk then .ok ({ tmp := false, dest := true }, true)
        else .ok ({ tmp := false, dest := false }, false)
      else .ok ({ tmp := false, dest := false }, false)

/-- External outcomes of one `install_customtabs_plugin` attempt: the
GitHub API fetch (raises are caught by the enclosing `except`), whether
a `.zip` asset is listed, the transfer outcome, `extractall`, and the
`/etc/environment` append. -/
structure CTEff where
  apiOk : Bool
  hasZipAsset : Bool
  downloadErr : Option NetErr
  extractOk : Bool
  envOk : Bool
deriving DecidableEq

/-- `install_customtabs_plugin(plugin_dir)`: the whole body is inside
one `try`/`except` that only prints and returns `False` — it performs
NO cleanup, so a failure after `mkdir`/download leaves the destination
directory and the scratch archive in place; `os.remove(temp_zip)` runs
only at the end of the success path. -/
def install_customtabs_fs (e : CTEff) (s : FSt) : FSt × Bool :=
  if e.apiOk = false then (s, false)
  else if e.hasZipAsset = false then (s, false)
  else
    match download_file_fs e.downloadErr s.tmp with
    | (tmp1, false) => ({ s with tmp := tmp1 }, false)
    | (_, true) =>
      if e.extractOk = false then ({ tmp := true, dest := true }, false)
      else if e.envOk = false then ({ tmp := true, dest := true }, false)
      else ({ tmp := false, dest := true }, true)

/-- External outcomes of one `install_enhanced_plugin` attempt. -/
structure EnhEff where
  apiOk : Bool
  downloadErr : Option NetErr
  extractOk : Bool
  envOk : Bool
deriving DecidableEq

/-- `install_enhanced_plugin(plugin_dir)`: same shape as
`install_customtabs_plugin` (one big `try`/`except` with no cleanup,
scratch archive removed only on the success path), without the asset
search. -/
def install_enhanced_fs (e : EnhEff) (s : FSt) : FSt × Bool :=
  if e.apiOk = false then (s, false)
  else
    match download_file_fs e.downloadErr s.tmp with
    | (tmp1, false) => ({ s with tmp := tmp1 }, false)
    | (_, true) =>
      if e.extractOk = false then ({ tmp := true, dest := true }, false)
      else if e.envOk = false then ({ tmp := true, dest := true }, false)
      else ({ tmp := false, dest := true }, true)

/-- Python truthiness of a fetched manifest: `download_manifest` returns
`None` on failure, and `if not manifest:` also treats an empty list as
unavailable. -/
def truthyManifest : Option (List CatalogRecord) → Bool
  | none => false
  | some [] => false
  | some (_ :: _) => true

/-- GUID of the Meilisearch plugin, hard-coded in
`install_meilisearch_plugin`. -/
def meilisearchGuid : String := "974395db-b31d-46a2-bc86-ef9aa5ac04dd"

/-- `install_meilisearch_plugin(plugin_dir)`: fetches its own manifest
(`if not manifest: return False`, so a missing or empty manifest is a
plain failure) and then delegates to `install_plugin`, whose raises
escape. -/
def install_meilisearch_run (meiliManifest : Option (List CatalogRecord))
    (e : IOEff) (s : FSt) : PyResult (FSt × Bool) :=
  if truthyManifest meiliManifest = false then .ok (s, false)
  else install_plugin_run (meiliManifest.getD []) meilisearchGuid e s

/-- GUID of FileTransformation, hard-coded in `main`. -/
def fileTransformationGuid : String := "5e87cc92-571a-4d8d-8d98-d2d4147f9f90"

/-- GUID of PluginPages, hard-coded in `main`. -/
def pluginPagesGuid : String := "5b6550fa-a014-4f4c-8a2c-59a43680ac6d"

/-- One iteration's inputs for `main`'s `for plugin_name, guid in
plugins:` loop: the requested GUID plus the external outcomes and
initial per-plugin file-system state of that `install_plugin` call. -/
structure PlugCall where
  guid : String
  eff : IOEff
  st : FSt
deriving DecidableEq

/-- `main`'s loop `for plugin_name, guid in plugins:` with the
success/failure tally accumulators: each `install_plugin` result
increments one counter; an uncaught exception escapes the loop
(`PyResult.exn`), abandoning the remaining plugins. -/
def install_loop (manifest : List CatalogRecord) :
    List PlugCall → Nat → Nat → PyResult (Nat × Nat)
  | [], s, f => .ok (s, f)
  | c :: rest, s, f =>
    match install_plugin_run manifest c.guid c.eff c.st with
    | .exn => .exn
    | .ok (_, true) => install_loop manifest rest (s + 1) f
    | .ok (_, false) => install_loop manifest rest s (f + 1)

/-- Outcome of one loop iteration's `install_plugin` call, with the
file-system component projected away (used to state tally properties). -/
def callOutcome (manifest : List CatalogRecord) (c : PlugCall) : PyResult Bool :=
  match install_plugin_run manifest c.guid c.eff c.st with
  | .exn => .exn
  | .ok (_, b) => .ok b

/-- Whether a call outcome is a normal return of `True`. -/
def isOkTrue : PyResult Bool → Bool
  | .ok true => true
  | _ => false

/-- Whether a call outcome is a normal return of `False`. -/
def isOkFalse : PyResult Bool → Bool
  | .ok false => true
  | _ => false

/-- All external inputs of one `main` run: the two fetched manifests,
and the outcomes/initial states of the five installation attempts. -/
structure World where
  mainManifest : Option (List CatalogRecord)
  ftEff : IOEff
  ftSt : FSt
  ppEff : IOEff
  ppSt : FSt
  ctEff : CTEff
  ctSt : FSt
  enhEff : EnhEff
  enhSt : FSt
  meiliManifest : Option (List CatalogRecord)
  meiliEff : IOEff
  meiliSt : FSt
deriving DecidableEq

/-- `main()`: fetch the primary manifest; when it is truthy, run the
loop over FileTransformation and PluginPages (otherwise skip them with
only a warning — no tally); then CustomTabs, Enhanced and Meilisearch
unconditionally; print the summary and exit.  Returns
(success count, failure count, exit status); in the source BOTH summary
branches call `sys.exit(0)`.  `PyResult.exn` models an uncaught
exception aborting the run. -/
def main_run (w : World) : PyResult (Nat × Nat × Nat) :=
  match (if truthyManifest w.mainManifest then
          install_loop (w.mainManifest.getD [])
            [⟨fileTransformationGuid, w.ftEff, w.ftSt⟩,
             ⟨pluginPagesGuid, w.ppEff, w.ppSt⟩] 0 0
         else .ok (0, 0)) with
  | .exn => .exn
  | .ok sf0 =>
    let sf1 := if (install_customtabs_fs w.ctEff w.ctSt).2 then (sf0.1 + 1, sf0.2)
               else (sf0.1, sf0.2 + 1)
    let sf2 := if (install_enhanced_fs w.enhEff w.enhSt).2 then (sf1.1 + 1, sf1.2)
               else (sf1.1, sf1.2 + 1)
    match install_meilisearch_run w.meiliManifest w.meiliEff w.meiliSt with
    | .exn => .exn
    | .ok res =>
      let sf3 := if res.2 then (sf2.1 + 1, sf2.2) else (sf2.1, sf2.2 + 1)
      .ok (sf3.1, sf3.2, if sf3.2 > 0 then 0 else 0)

/-- `p.isPrefixOf s` on character lists (structural, kernel-friendly). -/
def charsStartWith (p s : List Char) : Bool :=
  p.isPrefixOf s

/-- `s` ends with `p`, on character lists. -/
def charsEndWith (p s : List Char) : Bool :=
  p.reverse.isPrefixOf s.reverse

/-- One step bound for `replaceAllAux`: fuel is the remaining length. -/
def replaceAllAux (pat repl : List Char) : Nat → List Char → List Char
  | 0, s => s
  | _ + 1, [] => []
  | fuel + 1, c :: cs =>
    if charsStartWith pat (c :: cs) then
      repl ++ replaceAllAux pat repl fuel ((c :: cs).drop pat.length)
    else
      c :: replaceAllAux pat repl fuel cs

/-- Python `s.replace(pat, repl)`: replace every (left-most,
non-overlapping) occurrence of `pat` in `s`. -/
def pyReplace (pat repl s : String) : String :=
  ⟨replaceAllAux pat.data repl.data s.data.length s.data⟩

/-- The glob patterns searched by `find_image_file`, in priority order. -/
def image_extensions : List String :=
  ["*.png", "*.jpg", "*.jpeg", "*.svg", "*.gif"]

/-- `glob.glob` match of one directory entry against a `*.<ext>`
pattern: the name must end with the pattern's suffix, and glob's `*`
never matches a leading dot (hidden entries are skipped). -/
def globMatch (pattern name : String) : Bool :=
  (!charsStartWith ['.'] name.data) && charsEndWith (pattern.data.drop 1) name.data

/-- The extension scan of `find_image_file`: for each pattern in order,
`glob.glob(str(target_dir / ext))` (modeled as filtering the top-level
directory listing and prefixing the directory path); on the first
non-empty match list, return `matches[0].replace('/jellyfin/plugins',
'/config/plugins')`. -/
def find_image_aux (target_dir : String) (listing : List String) :
    List String → String
  | [] => ""
  | pat :: rest =>
    match listing.filter (fun n => globMatch pat n) with
    | [] => find_image_aux target_dir listing rest
    | n :: _ => pyReplace "/jellyfin/plugins" "/config/plugins" (target_dir ++ "/" ++ n)

/-- `find_image_file(target_dir)`: scan the single top level of the
destination directory (its listing, in directory order) for the image
extensions in priority order; empty string when nothing matches. -/
def find_image_file (target_dir : String) (listing : List String) : String :=
  find_image_aux target_dir listing image_extensions

/-- The normalized `meta.json` content built by `create_meta_json`. -/
structure MetaJson where
  category : String
  changelog : String
  description : String
  guid : String
  name : String
  overview : String
  owner : String
  targetAbi : String
  timestamp : String
  version : String
  status : String
  autoUpdate : Bool
  imagePath : String
  assemblies : List String
deriving DecidableEq

/-- The `meta` dict construction inside `create_meta_json(target_dir,
plugin_metadata, version_info, plugin_name)` — the synthesis step, a
total function (only the subsequent file write can fail, and that
failure is caught).  Defaults are exactly the source's `.get` defaults:
`category` → `'General'`, `name` → `plugin_name`, `targetAbi` →
`'10.11.0.0'`, everything else missing → `''`; `status`, `autoUpdate`
and `assemblies` are constants. -/
def synthesize_meta (target_dir : String) (listing : List String)
    (plugin_metadata : CatalogRecord) (version_info : ReleaseEntry)
    (plugin_name : String) : MetaJson :=
  { category := plugin_metadata.category.getD "General"
  , changelog := version_info.changelog.getD ""
  , description := plugin_metadata.description.getD ""
  , guid := plugin_metadata.guid.getD ""
  , name := plugin_metadata.name.getD plugin_name
  , overview := plugin_metadata.overview.getD ""
  , owner := plugin_metadata.owner.getD ""
  , targetAbi := version_info.targetAbi.getD "10.11.0.0"
  , timestamp := version_info.timestamp.getD ""
  , version := version_info.version.getD ""
  , status := "Active"
  , autoUpdate := true
  , imagePath := find_image_file target_dir listing
  , assemblies := [] }

/-- A release entry with all-absent optional metadata (only the fields
selection needs are present); concrete input for witnesses. -/
def relLow : ReleaseEntry :=
  ⟨some "1.0.0", some "10.9.0.0", some "http://example/a.zip", none, none⟩

/-- A release entry whose compatibility marker beats `relLow`'s under
integer-tuple comparison. -/
def relHigh : ReleaseEntry :=
  ⟨some "2.0.0", some "10.10.0.0", some "http://example/b.zip", none, none⟩

/-- A release entry with an unparseable compatibility marker. -/
def relBad : ReleaseEntry :=
  ⟨some "3.0.0", some "10.x.0", some "http://example/c.zip", none, none⟩

/-- Concrete catalog record holding `relLow` and `relHigh`, listed in
that order. -/
def recGood : CatalogRecord :=
  ⟨some "abc", some "Good Plugin", none, none, none, none, some [relLow, relHigh]⟩

/-- Concrete catalog record whose only release has a malformed
compatibility marker. -/
def recBad : CatalogRecord :=
  ⟨some "bad", some "Bad Plugin", none, none, none, none, some [relBad]⟩

/-- Concrete two-record manifest used by witnesses and counterexamples. -/
def manGood : List CatalogRecord := [recGood]

/-- Concrete manifest containing both the malformed-marker record and a
well-formed one. -/
def manMixed : List CatalogRecord := [recBad, recGood]

/-- Catalog records for the primary-manifest plugins, used to build
concrete worlds. -/
def recFT : CatalogRecord :=
  ⟨some fileTransformationGuid, some "File Transformation", none, none, none,
   none, some [relLow]⟩

/-- Catalog record for PluginPages. -/
def recPP : CatalogRecord :=
  ⟨some pluginPagesGuid, some "Plugin Pages", none, none, none, none,
   some [relHigh]⟩

/-- Catalog record for the Meilisearch plugin. -/
def recMeili : CatalogRecord :=
  ⟨some meilisearchGuid, some "Meilisearch", none, none, none, none,
   some [relLow]⟩

/-- Installation outcomes where everything succeeds. -/
def effAllOk : IOEff := ⟨none, true, true⟩

/-- Installation outcomes where the artifact transfer fails during the
body read. -/
def effDlFail : IOEff := ⟨some NetErr.errAfterOpen, true, true⟩

/-- Fresh per-plugin file-system state: no scratch archive, no
destination directory. -/
def stFresh : FSt := ⟨false, false⟩

/-- Concrete world in which every fetch and every installation
succeeds. -/
def wAllOk : World :=
  ⟨some [recFT, recPP], effAllOk, stFresh, effAllOk, stFresh,
   ⟨true, true, none, true, true⟩, stFresh,
   ⟨true, none, true, true⟩, stFresh,
   some [recMeili], effAllOk, stFresh⟩

/-- Concrete world in which the primary catalog fetch fails and all
alternate-sourced installations succeed. -/
def wPrimaryDown : World :=
  ⟨none, effAllOk, stFresh, effAllOk, stFresh,
   ⟨true, true, none, true, true⟩, stFresh,
   ⟨true, none, true, true⟩, stFresh,
   some [recMeili], effAllOk, stFresh⟩

/-- Like `wPrimaryDown` but starting from per-plugin states whose
scratch flags differ (used by a separate witness). -/
def wPrimaryDown2 : World :=
  ⟨none, effAllOk, stFresh, effAllOk, stFresh,
   ⟨true, true, none, true, true⟩, ⟨true, false⟩,
   ⟨true, none, true, true⟩, ⟨true, false⟩,
   some [recMeili], effAllOk, ⟨true, false⟩⟩

/-! ### Order-theoretic facts about Python tuple comparison -/

theorem tupleLt_irrefl (a : List Int) : tupleLt a a = false := by
  induction a with
  | nil => rfl
  | cons x xs ih => simp [tupleLt, ih]

theorem tupleLt_asymm {a b : List Int} (h : tupleLt a b = true) :
    tupleLt b a = false := by
  induction a generalizing b with
  | nil =>
    cases b with
    | nil => simp [tupleLt] at h
    | cons y ys => simp [tupleLt]
  | cons x xs ih =>
    cases b with
    | nil => simp [tupleLt] at h
    | cons y ys =>
      rcases lt_trichotomy x y with hxy | hxy | hxy
      · simp [tupleLt, asymm hxy, hxy]
      · subst hxy
        simp only [tupleLt, lt_irrefl, if_false] at h ⊢
        exact ih h
      · simp [tupleLt, asymm hxy, hxy] at h

theorem tupleLt_le_trans : ∀ (a b c : List Int), tupleLt a b = false →
    tupleLt b c = false → tupleLt a c = false := by
  intro a
  induction a with
  | nil =>
    intro b c h1 h2
    cases b <;> cases c <;> simp_all [tupleLt]
  | cons x xs ih =>
    intro b c h1 h2
    cases b with
    | nil => cases c with
      | nil => simp [tupleLt]
      | cons z zs => simp [tupleLt] at h2
    | cons y ys =>
      cases c with
      | nil => simp [tupleLt]
      | cons z zs =>
        rcases lt_trichotomy x y with hxy | hxy | hxy
        · simp [tupleLt, hxy] at h1
        · subst hxy
          simp only [tupleLt, lt_irrefl, if_false] at h1
          rcases lt_trichotomy x z with hxz | hxz | hxz
          · simp [tupleLt, hxz] at h2
          · subst hxz
            simp only [tupleLt, lt_irrefl, if_false] at h2 ⊢
            exact ih ys zs h1 h2
          · simp [tupleLt, asymm hxz, hxz]
        · rcases lt_trichotomy y z with hyz | hyz | hyz
          · simp [tupleLt, hyz] at h2
          · subst hyz
            simp [tupleLt, asymm hxy, hxy]
          · have hzx : z < x := lt_trans hyz hxy
            simp [tupleLt, asymm hzx, hzx]

theorem insertDesc_ne_nil {α : Type} (key : α → List Int) (x : α)
    (l : List α) : insertDesc key x l ≠ [] := by
  cases l with
  | nil => simp [insertDesc]
  | cons y ys =>
    simp only [insertDesc]
    split <;> simp

/-- The head of the stable descending sort of a non-empty list is a
member, its key is maximal, and everything listed before it in the
input has a strictly smaller key (so among equal maximal keys the first
listed wins). -/
theorem sortDescBy_cons_headD {α : Type} (key : α → List Int) (d : α) :
    ∀ (x : α) (l : List α),
      (sortDescBy key (x :: l)).headD d ∈ x :: l ∧
      (∀ v ∈ x :: l,
        tupleLt (key ((sortDescBy key (x :: l)).headD d)) (key v) = false) ∧
      ∃ l1 l2, x :: l = l1 ++ ((sortDescBy key (x :: l)).headD d) :: l2 ∧
        ∀ v ∈ l1, tupleLt (key v) (key ((sortDescBy key (x :: l)).headD d)) = true := by
  intro x l
  induction l generalizing x with
  | nil =>
    refine ⟨by simp [sortDescBy, insertDesc], ?_, [], [],
      by simp [sortDescBy, insertDesc], by simp⟩
    intro v hv
    simp only [List.mem_singleton] at hv
    subst hv
    simp [sortDescBy, insertDesc, tupleLt_irrefl]
  | cons y ys ih =>
    obtain ⟨b, t, heq⟩ :=
      List.exists_cons_of_ne_nil (insertDesc_ne_nil key y (sortDescBy key ys))
    have hsort : sortDescBy key (y :: ys) = b :: t := by
      simpa [sortDescBy] using heq
    obtain ⟨ihmem, ihmax, l1, l2, ihdec, ihlt⟩ := ih y
    rw [hsort] at ihmem ihmax ihdec ihlt
    simp only [List.headD_cons] at ihmem ihmax ihdec ihlt
    have hstep : sortDescBy key (x :: y :: ys) = insertDesc key x (b :: t) := by
      simp only [sortDescBy]
      rw [← hsort]
      simp [sortDescBy]
    cases hc : tupleLt (key x) (key b) with
    | false =>
      have hhead : (sortDescBy key (x :: y :: ys)).headD d = x := by
        rw [hstep]
        simp [insertDesc, hc]
      rw [hhead]
      refine ⟨List.mem_cons_self x (y :: ys), ?_, [], y :: ys, rfl, by simp⟩
      intro v hv
      rcases List.mem_cons.mp hv with hv | hv
      · subst hv; exact tupleLt_irrefl (key v)
      · exact tupleLt_le_trans (key x) (key b) (key v) hc (ihmax v hv)
    | true =>
      have hhead : (sortDescBy key (x :: y :: ys)).headD d = b := by
        rw [hstep]
        simp [insertDesc, hc]
      rw [hhead]
      refine ⟨List.mem_cons_of_mem x ihmem, ?_, x :: l1, l2, by rw [ihdec]; rfl, ?_⟩
      · intro v hv
        rcases List.mem_cons.mp hv with hv | hv
        · subst hv; exact tupleLt_asymm hc
        · exact ihmax v hv
      · intro v hv
        rcases List.mem_cons.mp hv with hv | hv
        · subst hv; exact hc
        · exact ihlt v hv

/-! ### Claim C1 — selection returns the component-wise maximal release -/

/-- C1: for every manifest whose matching record (the first one with the
requested GUID) has a non-empty release list — with every compared
compatibility marker parsing as a dotted integer tuple and the chosen
entry's `version`/`sourceUrl` present, so that selection completes
without raising — `get_highest_version` returns the entry whose
`targetAbi`, parsed as an integer tuple, is maximal under component-wise
tuple comparison, and among equal markers the entry listed first in the
catalog wins (everything listed before the returned entry is strictly
smaller). -/
theorem C1_selects_componentwise_max
    (manifest : List CatalogRecord) (guid : String) (plugin : CatalogRecord)
    (hfind : manifest.find? (fun p => p.guid == some guid) = some plugin)
    (hne : plugin.versions.getD [] ≠ [])
    (hparse : ∀ v ∈ plugin.versions.getD [],
      (v.targetAbi.bind parse_version).isSome = true)
    (hfields : ∀ v ∈ plugin.versions.getD [],
      v.version.isSome = true ∧ v.sourceUrl.isSome = true) :
    ∃ best,
      get_highest_version manifest guid = SelectionResult.found best plugin ∧
      best ∈ plugin.versions.getD [] ∧
      (∀ v ∈ plugin.versions.getD [], tupleLt (abiKey best) (abiKey v) = false) ∧
      ∃ l1 l2, plugin.versions.getD [] = l1 ++ best :: l2 ∧
        ∀ v ∈ l1, tupleLt (abiKey v) (abiKey best) = true := by
  obtain ⟨v0, vs, hvs⟩ := List.exists_cons_of_ne_nil hne
  obtain ⟨hmem, hmax, l1, l2, hdec, hlt⟩ := sortDescBy_cons_headD abiKey v0 v0 vs
  have hall : (v0 :: vs).all (fun v => (v.targetAbi.bind parse_version).isSome) = true := by
    rw [List.all_eq_true]
    intro v hv
    exact hparse v (by rw [hvs]; exact hv)
  obtain ⟨hver, hurl⟩ := hfields ((sortDescBy abiKey (v0 :: vs)).headD v0)
    (by rw [hvs]; exact hmem)
  obtain ⟨bv, hbv⟩ := Option.isSome_iff_exists.mp hver
  obtain ⟨bu, hbu⟩ := Option.isSome_iff_exists.mp hurl
  refine ⟨(sortDescBy abiKey (v0 :: vs)).headD v0, ?_, ?_, ?_, ?_⟩
  · simp only [get_highest_version, hfind, hvs, hall, hbv, hbu]
  · rw [hvs]; exact hmem
  · rw [hvs]; exact hmax
  · exact ⟨l1, l2, by rw [hvs]; exact hdec, hlt⟩

/-- C1 witness: on the concrete one-record manifest `manGood`, whose
release list carries markers `10.9.0.0` then `10.10.0.0`, the
hypotheses hold and selection picks the `10.10.0.0` entry (`relHigh`). -/
theorem C1_witness :
    (manGood.find? (fun p => p.guid == some "abc") = some recGood ∧
      recGood.versions.getD [] ≠ []) ∧
    (∃ best,
      get_highest_version manGood "abc" = SelectionResult.found best recGood ∧
      best ∈ recGood.versions.getD [] ∧
      (∀ v ∈ recGood.versions.getD [], tupleLt (abiKey best) (abiKey v) = false) ∧
      ∃ l1 l2, recGood.versions.getD [] = l1 ++ best :: l2 ∧
        ∀ v ∈ l1, tupleLt (abiKey v) (abiKey best) = true) :=
  ⟨⟨by decide, by decide⟩,
    C1_selects_componentwise_max manGood "abc" recGood (by decide) (by decide)
      (by decide) (by decide)⟩

/-! ### Claim C10 — marker parsing is partial and raises, not NotFound -/

/-- C10: whenever the matched record's release list contains an entry
whose compatibility marker is absent or has a component that is not a
decimal integer, `get_highest_version` raises an uncaught exception
(`raised`) instead of returning the `notFound` outcome; selection is
total only under the precondition that every compared marker parses as
a dot-separated integer sequence. -/
theorem C10_raises_on_malformed_marker
    (manifest : List CatalogRecord) (guid : String) (plugin : CatalogRecord)
    (v : ReleaseEntry)
    (hfind : manifest.find? (fun p => p.guid == some guid) = some plugin)
    (hv : v ∈ plugin.versions.getD [])
    (hbad : v.targetAbi.bind parse_version = none) :
    get_highest_version manifest guid = SelectionResult.raised := by
  obtain ⟨v0, vs, hvs⟩ := List.exists_cons_of_ne_nil (List.ne_nil_of_mem hv)
  have hall : (v0 :: vs).all (fun v => (v.targetAbi.bind parse_version).isSome) = false := by
    rw [List.all_eq_false]
    exact ⟨v, by rw [hvs] at hv; exact hv, by simp [hbad]⟩
  simp only [get_highest_version, hfind, hvs, hall]

/-- C10 witness: in the concrete manifest `manMixed` the record `"bad"`
carries the marker `10.x.0`, whose middle component `int('x')` raises,
and selection on GUID `"bad"` raises instead of signalling NotFound. -/
theorem C10_witness :
    (manMixed.find? (fun p => p.guid == some "bad") = some recBad ∧
      relBad ∈ recBad.versions.getD [] ∧
      relBad.targetAbi.bind parse_version = none) ∧
    get_highest_version manMixed "bad" = SelectionResult.raised :=
  ⟨⟨by decide, by decide, by decide⟩,
    C10_raises_on_malformed_marker manMixed "bad" recBad relBad (by decide)
      (by decide) (by decide)⟩

/-! ### Claim C8 — transfer failure return and the partial scratch file -/

/-- C8 counterexample: a transport error during the body transfer
(after `open(dest_path, 'wb')` already created the scratch file) yields
the failing return, but the partial scratch file IS left in place at the
destination path, refuting the claim that no partial scratch file
remains. -/
theorem C8_counterexample :
    (download_file_fs (some NetErr.errAfterOpen) false).2 = false ∧
    (download_file_fs (some NetErr.errAfterOpen) false).1 ≠ false := by
  decide

/-- C8 (amended): any transport error yields the failing DownloadFailed
return — never a raised fault — but `download_file` attempts no cleanup:
an error before the scratch file is opened leaves the file flag
unchanged, while an error during the body transfer leaves the freshly
created partial scratch file in place. -/
theorem C8_amended_transfer (e : NetErr) (prev : Bool) :
    (download_file_fs (some e) prev).2 = false ∧
    (download_file_fs none prev).2 = true ∧
    (download_file_fs (some NetErr.errBeforeOpen) prev).1 = prev ∧
    (download_file_fs (some NetErr.errAfterOpen) prev).1 = true := by
  cases e <;> cases prev <;> decide

/-! ### Claim C3 — destination directory cleanup on extraction failure -/

/-- C3 counterexample: starting from a state in which the destination
directory already exists (`dest = true`), an `install_plugin` attempt
whose extraction fails removes it (`dest = false` afterwards), refuting
the claim that a destination directory that existed before the call is
not removed. -/
theorem C3_counterexample :
    install_plugin_run manGood "abc" ⟨none, false, true⟩ ⟨false, true⟩
      = PyResult.ok (⟨false, false⟩, false) := by
  decide

/-- C3 (amended): in `install_plugin`, extraction failure removes the
destination directory whenever it exists afterwards — including one
that existed before the call — together with the scratch archive; in
`install_customtabs_plugin`, extraction failure performs no cleanup at
all, leaving the freshly created destination directory (and the scratch
archive) behind. -/
theorem C3_amended_cleanup :
    (∀ (manifest : List CatalogRecord) (guid : String) (best : ReleaseEntry)
        (plugin : CatalogRecord) (e : IOEff) (s : FSt),
      get_highest_version manifest guid = SelectionResult.found best plugin →
      e.downloadErr = none → e.extractOk = false →
      install_plugin_run manifest guid e s = PyResult.ok (⟨false, false⟩, false)) ∧
    (∀ (e : CTEff) (s : FSt),
      e.apiOk = true → e.hasZipAsset = true → e.downloadErr = none →
      e.extractOk = false →
      install_customtabs_fs e s = (⟨true, true⟩, false)) := by
  constructor
  · intro manifest guid best plugin e s hsel hdl hex
    simp [install_plugin_run, hsel, hdl, hex, download_file_fs]
  · intro e s h1 h2 h3 h4
    simp [install_customtabs_fs, h1, h2, h3, h4, download_file_fs]

/-- C3 witness: concrete instances of both halves of the amended claim —
a fresh-state `install_plugin` extraction failure removes the directory
it created, and a customtabs extraction failure leaves its directory and
scratch archive behind. -/
theorem C3_witness :
    install_plugin_run manGood "abc" ⟨none, false, true⟩ stFresh
      = PyResult.ok (⟨false, false⟩, false) ∧
    install_customtabs_fs ⟨true, true, none, false, false⟩ stFresh
      = (⟨true, true⟩, false) :=
  ⟨C3_amended_cleanup.1 manGood "abc" relHigh recGood ⟨none, false, true⟩ stFresh
      (by decide) rfl rfl,
   C3_amended_cleanup.2 ⟨true, true, none, false, false⟩ stFresh rfl rfl rfl rfl⟩

/-! ### Claim C4 — scratch archive removal on every exit path -/

/-- C4 counterexample: in `install_customtabs_plugin`, after a
successful download, an extraction failure exits through the `except`
handler, which performs no cleanup — the scratch archive
`/tmp/customtabs.zip` is left behind, refuting the claim that the
scratch archive is removed on every exit path. -/
theorem C4_counterexample :
    (install_customtabs_fs ⟨true, true, none, false, true⟩ stFresh).1.tmp = true := by
  decide

/-- C4 (amended): in `install_plugin` the scratch archive is removed on
every exit path following a successful download (the attempt's full
result is characterized, with `tmp = false` in every case); in
`install_customtabs_plugin` an extraction failure leaves the scratch
archive behind, and it is removed only on the full success path. -/
theorem C4_amended_scratch :
    (∀ (manifest : List CatalogRecord) (guid : String) (best : ReleaseEntry)
        (plugin : CatalogRecord) (e : IOEff) (s : FSt),
      get_highest_version manifest guid = SelectionResult.found best plugin →
      e.downloadErr = none →
      install_plugin_run manifest guid e s
        = PyResult.ok (⟨false, e.extractOk && e.envOk⟩, e.extractOk && e.envOk)) ∧
    (∀ (e : CTEff) (s : FSt),
      e.apiOk = true → e.hasZipAsset = true → e.downloadErr = none →
      (e.extractOk = false → (install_customtabs_fs e s).1.tmp = true) ∧
      (e.extractOk = true → e.envOk = true →
        install_customtabs_fs e s = (⟨false, true⟩, true))) := by
  constructor
  · intro manifest guid best plugin e s hsel hdl
    cases hex : e.extractOk <;> cases henv : e.envOk <;>
      simp [install_plugin_run, hsel, hdl, hex, henv, download_file_fs]
  · intro e s h1 h2 h3
    constructor
    · intro hex
      simp [install_customtabs_fs, h1, h2, h3, hex, download_file_fs]
    · intro hex henv
      simp [install_customtabs_fs, h1, h2, h3, hex, henv, download_file_fs]

/-- C4 witness: a fully successful `install_plugin` attempt ends with
the scratch archive removed, and a customtabs extraction failure
starting from a pre-existing scratch file still has it present
afterwards. -/
theorem C4_witness :
    install_plugin_run manGood "abc" effAllOk stFresh
      = PyResult.ok (⟨false, true⟩, true) ∧
    (install_customtabs_fs ⟨true, true, none, false, false⟩ ⟨true, false⟩).1.tmp
      = true :=
  ⟨by simpa using
      C4_amended_scratch.1 manGood "abc" relHigh recGood effAllOk stFresh
        (by decide) rfl,
   (C4_amended_scratch.2 ⟨true, true, none, false, false⟩ ⟨true, false⟩
      rfl rfl rfl).1 rfl⟩

/-! ### Claim C2 — per-plugin isolation and the run tally -/

theorem install_loop_tally (manifest : List CatalogRecord) :
    ∀ (ps : List PlugCall) (s f : Nat),
      (∀ c ∈ ps, callOutcome manifest c ≠ PyResult.exn) →
      install_loop manifest ps s f
        = PyResult.ok
            (s + ps.countP (fun x => isOkTrue (callOutcome manifest x)),
             f + ps.countP (fun x => isOkFalse (callOutcome manifest x))) := by
  intro ps
  induction ps with
  | nil => intro s f _; simp [install_loop]
  | cons c rest ih =>
    intro s f h
    have hc := h c (List.mem_cons_self c rest)
    have hrest : ∀ x ∈ rest, callOutcome manifest x ≠ PyResult.exn :=
      fun x hx => h x (List.mem_cons_of_mem c hx)
    cases hr : install_plugin_run manifest c.guid c.eff c.st with
    | exn => exact absurd (by simp [callOutcome, hr]) hc
    | ok val =>
      obtain ⟨st, b⟩ := val
      have hco : callOutcome manifest c = PyResult.ok b := by
        simp [callOutcome, hr]
      cases b with
      | true =>
        have hT : (c :: rest).countP (fun x => isOkTrue (callOutcome manifest x))
            = rest.countP (fun x => isOkTrue (callOutcome manifest x)) + 1 := by
          rw [List.countP_cons]
          simp [hco, isOkTrue]
        have hF : (c :: rest).countP (fun x => isOkFalse (callOutcome manifest x))
            = rest.countP (fun x => isOkFalse (callOutcome manifest x)) := by
          rw [List.countP_cons]
          simp [hco, isOkFalse]
        simp only [install_loop, hr]
        rw [ih (s + 1) f hrest, hT, hF]
        simp only [PyResult.ok.injEq, Prod.mk.injEq]
        constructor <;> first | trivial | omega
      | false =>
        have hT : (c :: rest).countP (fun x => isOkTrue (callOutcome manifest x))
            = rest.countP (fun x => isOkTrue (callOutcome manifest x)) := by
          rw [List.countP_cons]
          simp [hco, isOkTrue]
        have hF : (c :: rest).countP (fun x => isOkFalse (callOutcome manifest x))
            = rest.countP (fun x => isOkFalse (callOutcome manifest x)) + 1 := by
          rw [List.countP_cons]
          simp [hco, isOkFalse]
        simp only [install_loop, hr]
        rw [ih s (f + 1) hrest, hT, hF]
        simp only [PyResult.ok.injEq, Prod.mk.injEq]
        constructor <;> first | trivial | omega

theorem callOutcome_count_total (manifest : List CatalogRecord) :
    ∀ (ps : List PlugCall),
      (∀ c ∈ ps, callOutcome manifest c ≠ PyResult.exn) →
      ps.countP (fun x => isOkTrue (callOutcome manifest x)) +
        ps.countP (fun x => isOkFalse (callOutcome manifest x)) = ps.length := by
  intro ps
  induction ps with
  | nil => intro _; simp
  | cons c rest ih =>
    intro h
    have hc := h c (List.mem_cons_self c rest)
    have hrest : ∀ x ∈ rest, callOutcome manifest x ≠ PyResult.exn :=
      fun x hx => h x (List.mem_cons_of_mem c hx)
    have hlen : (c :: rest).length = rest.length + 1 := rfl
    cases hco : callOutcome manifest c with
    | exn => exact absurd hco hc
    | ok b =>
      have hT : (c :: rest).countP (fun x => isOkTrue (callOutcome manifest x))
          = rest.countP (fun x => isOkTrue (callOutcome manifest x))
            + (if b = true then 1 else 0) := by
        rw [List.countP_cons]
        cases b <;> simp [hco, isOkTrue]
      have hF : (c :: rest).countP (fun x => isOkFalse (callOutcome manifest x))
          = rest.countP (fun x => isOkFalse (callOutcome manifest x))
            + (if b = false then 1 else 0) := by
        rw [List.countP_cons]
        cases b <;> simp [hco, isOkFalse]
      rw [hT, hF, hlen]
      have := ih hrest
      cases b <;> simp <;> omega

/-- C2 counterexample: two requested plugins over `manMixed`; processing
the first raises an uncaught exception (its only release's marker
`10.x.0` fails integer parsing), so the loop aborts — the second plugin
(which would succeed) is never attempted and no tally `(N-1, 1)` is
produced, refuting the claim that a failure or exception never prevents
subsequent plugins from being attempted. -/
theorem C2_counterexample :
    install_loop manMixed
        [⟨"bad", effAllOk, stFresh⟩, ⟨"abc", effAllOk, stFresh⟩] 0 0
      = PyResult.exn ∧
    (PyResult.exn : PyResult (Nat × Nat)) ≠ PyResult.ok (1, 1) := by
  decide

/-- C2 (amended): provided every installation call returns normally
(no uncaught exception escapes — failures are reported as `False`
returns), the run attempts every one of the N requested plugins and the
tally is exact: with exactly one failing plugin the summary is
`(N - 1, 1)`. -/
theorem C2_amended_isolated_tally (manifest : List CatalogRecord)
    (ps : List PlugCall)
    (hne : ∀ c ∈ ps, callOutcome manifest c ≠ PyResult.exn)
    (hone : ps.countP (fun x => isOkFalse (callOutcome manifest x)) = 1) :
    install_loop manifest ps 0 0 = PyResult.ok (ps.length - 1, 1) := by
  rw [install_loop_tally manifest ps 0 0 hne]
  have hsum := callOutcome_count_total manifest ps hne
  simp only [Nat.zero_add, PyResult.ok.injEq, Prod.mk.injEq]
  omega

/-- C2 witness: two requested plugins over `manGood`, the second of
which fails at the download step; the loop attempts both and tallies
`(1, 1) = (N - 1, 1)` for N = 2. -/
theorem C2_witness :
    ((∀ c ∈ [(⟨"abc", effAllOk, stFresh⟩ : PlugCall),
        ⟨"abc", effDlFail, stFresh⟩],
      callOutcome manGood c ≠ PyResult.exn) ∧
     [(⟨"abc", effAllOk, stFresh⟩ : PlugCall),
        ⟨"abc", effDlFail, stFresh⟩].countP
          (fun x => isOkFalse (callOutcome manGood x)) = 1) ∧
    install_loop manGood
        [⟨"abc", effAllOk, stFresh⟩, ⟨"abc", effDlFail, stFresh⟩] 0 0
      = PyResult.ok (1, 1) :=
  ⟨⟨by decide, by decide⟩,
   by simpa using
      C2_amended_isolated_tally manGood
        [⟨"abc", effAllOk, stFresh⟩, ⟨"abc", effDlFail, stFresh⟩]
        (by decide) (by decide)⟩

/-! ### Claim C5 — completed runs always exit with the soft-success status -/

/-- C5: every run of `main` that reaches completion (returns a summary
instead of crashing) exits with status 0, whether or not some
installations failed; only the printed summary distinguishes the two
outcomes. -/
theorem C5_soft_success_exit (w : World) (s f ec : Nat)
    (h : main_run w = PyResult.ok (s, f, ec)) : ec = 0 := by
  unfold main_run at h
  repeat' split at h
  all_goals simp_all

/-- C5 witness: the all-success world completes with summary `(5, 0)`
and exit status 0, and the theorem applies to it. -/
theorem C5_witness :
    main_run wAllOk = PyResult.ok (5, 0, 0) ∧ (0 : Nat) = 0 :=
  ⟨by decide, C5_soft_success_exit wAllOk 5 0 0 (by decide)⟩

/-! ### Claim C9 — primary catalog failure and the tally -/

/-- C9 counterexample: the primary catalog fetch fails and every
alternate-sourced installation succeeds, yet the run reports failure
count 0 — the two plugins that depended on the primary catalog
(FileTransformation, PluginPages) are skipped without being tallied,
refuting the claim that the run reports a non-zero failure count
covering exactly the primary-catalog plugins. -/
theorem C9_counterexample :
    main_run wPrimaryDown = PyResult.ok (3, 0, 0) := by
  decide

/-- C9 (amended): when the primary catalog is unavailable, the plugins
sourced from it are skipped without entering the tally; the
alternate-sourced installations are still attempted, and when all three
succeed the run completes with summary `(3, 0)` and the soft-success
exit status — the failure count does not cover the skipped plugins. -/
theorem C9_amended_skip_without_tally (w : World) (res : FSt)
    (hmain : truthyManifest w.mainManifest = false)
    (hct : (install_customtabs_fs w.ctEff w.ctSt).2 = true)
    (henh : (install_enhanced_fs w.enhEff w.enhSt).2 = true)
    (hmeili : install_meilisearch_run w.meiliManifest w.meiliEff w.meiliSt
      = PyResult.ok (res, true)) :
    main_run w = PyResult.ok (3, 0, 0) := by
  simp [main_run, hmain, hct, henh, hmeili]

/-- C9 witness: the amended theorem applied to a concrete
primary-catalog-down world (with non-fresh initial scratch states). -/
theorem C9_witness :
    main_run wPrimaryDown2 = PyResult.ok (3, 0, 0) :=
  C9_amended_skip_without_tally wPrimaryDown2 ⟨false, true⟩ (by decide)
    (by decide) (by decide) (by decide)

/-! ### Claim C6 — descriptor synthesis defaults -/

/-- C6 counterexample: with the category field absent, the synthesized
descriptor's category is `'General'`, not the empty string — refuting
the claim that every missing metadata field defaults to the empty
string. -/
theorem C6_counterexample :
    (synthesize_meta "/jellyfin/plugins/X_1.0" []
        ⟨none, none, none, none, none, none, none⟩
        ⟨none, none, none, none, none⟩ "X").category = "General" ∧
    (synthesize_meta "/jellyfin/plugins/X_1.0" []
        ⟨none, none, none, none, none, none, none⟩
        ⟨none, none, none, none, none⟩ "X").category ≠ "" := by
  decide

/-- C6 (amended): descriptor synthesis is a total function (it never
fails; only the subsequent, separately-reported file write can); the
constant fields are always status `'Active'`, auto-update `true` and an
empty assembly list, and with every optional source field absent the
remaining fields default to the empty string — except category, which
defaults to `'General'` — with a missing compatibility marker defaulting
to `'10.11.0.0'` and a missing name defaulting to the fallback plugin
identity. -/
theorem C6_amended_defaults (d : String) (l : List String) (nm : String) :
    (∀ (md : CatalogRecord) (vi : ReleaseEntry),
      (synthesize_meta d l md vi nm).status = "Active" ∧
      (synthesize_meta d l md vi nm).autoUpdate = true ∧
      (synthesize_meta d l md vi nm).assemblies = []) ∧
    synthesize_meta d l ⟨none, none, none, none, none, none, none⟩
        ⟨none, none, none, none, none⟩ nm
      = { category := "General", changelog := "", description := "", guid := ""
        , name := nm, overview := "", owner := "", targetAbi := "10.11.0.0"
        , timestamp := "", version := "", status := "Active", autoUpdate := true
        , imagePath := find_image_file d l, assemblies := [] } :=
  ⟨fun _ _ => ⟨rfl, rfl, rfl⟩, rfl⟩

/-! ### Claim C7 — image discovery priority, rewrite and default -/

theorem filter_head?_eq_find? {α : Type} (p : α → Bool) :
    ∀ (l : List α), (l.filter p).head? = l.find? p := by
  intro l
  induction l with
  | nil => rfl
  | cons x xs ih =>
    cases hx : p x <;> simp [List.filter_cons, List.find?_cons, hx, ih]

theorem find_image_aux_all_unmatched (dir : String) (listing : List String) :
    ∀ (pats : List String),
      (∀ n ∈ listing, ∀ pat ∈ pats, globMatch pat n = false) →
      find_image_aux dir listing pats = "" := by
  intro pats
  induction pats with
  | nil => intro _; rfl
  | cons p ps ih =>
    intro h
    have hp : listing.filter (fun n => globMatch p n) = [] := by
      rw [List.filter_eq_nil_iff]
      intro a ha
      simp [h a ha p (List.mem_cons_self p ps)]
    simp only [find_image_aux, hp]
    exact ih (fun n hn pat hpat => h n hn pat (List.mem_cons_of_mem p hpat))

/-- C7: image discovery scans only the single top level of the
destination directory (the model's `listing`); the extension priority
order is png, jpg, jpeg, svg, gif; the first directory entry matching
the highest-priority extension with any match is returned, with the
plugin-storage prefix `/jellyfin/plugins` rewritten to
`/config/plugins`; and the empty string is returned when nothing
matches.  In particular a `.png` match wins over any `.jpg` entry. -/
theorem C7_image_discovery (dir f : String) (listing : List String) :
    ((∀ n ∈ listing, ∀ pat ∈ image_extensions, globMatch pat n = false) →
      find_image_file dir listing = "") ∧
    (listing.find? (fun n => globMatch "*.png" n) = some f →
      find_image_file dir listing
        = pyReplace "/jellyfin/plugins" "/config/plugins" (dir ++ "/" ++ f)) ∧
    ((∀ n ∈ listing, globMatch "*.png" n = false) →
      listing.find? (fun n => globMatch "*.jpg" n) = some f →
      find_image_file dir listing
        = pyReplace "/jellyfin/plugins" "/config/plugins" (dir ++ "/" ++ f)) := by
  refine ⟨?_, ?_, ?_⟩
  · intro h
    exact find_image_aux_all_unmatched dir listing image_extensions h
  · intro hf
    have hh := filter_head?_eq_find? (fun n => globMatch "*.png" n) listing
    rw [hf] at hh
    cases hfil : listing.filter (fun n => globMatch "*.png" n) with
    | nil => rw [hfil] at hh; exact absurd hh (by simp)
    | cons a t =>
      rw [hfil] at hh
      simp only [List.head?_cons, Option.some.injEq] at hh
      subst hh
      simp only [find_image_file, image_extensions, find_image_aux, hfil]
  · intro hpng hf
    have h1 : listing.filter (fun n => globMatch "*.png" n) = [] := by
      rw [List.filter_eq_nil_iff]
      intro a ha
      simp [hpng a ha]
    have hh := filter_head?_eq_find? (fun n => globMatch "*.jpg" n) listing
    rw [hf] at hh
    cases hfil : listing.filter (fun n => globMatch "*.jpg" n) with
    | nil => rw [hfil] at hh; exact absurd hh (by simp)
    | cons a t =>
      rw [hfil] at hh
      simp only [List.head?_cons, Option.some.injEq] at hh
      subst hh
      simp only [find_image_file, image_extensions, find_image_aux, h1, hfil]

/-- C7 witness: a directory containing `banner.jpg` and `icon.png`
yields `icon.png`'s rewritten path `/config/plugins/Foo_1.0/icon.png`. -/
theorem C7_witness :
    (["banner.jpg", "icon.png"].find? (fun n => globMatch "*.png" n)
      = some "icon.png") ∧
    find_image_file "/jellyfin/plugins/Foo_1.0" ["banner.jpg", "icon.png"]
      = pyReplace "/jellyfin/plugins" "/config/plugins"
          ("/jellyfin/plugins/Foo_1.0" ++ "/" ++ "icon.png") ∧
    find_image_file "/jellyfin/plugins/Foo_1.0" ["banner.jpg", "icon.png"]
      = "/config/plugins/Foo_1.0/icon.png" :=
  ⟨by decide,
   (C7_image_discovery "/jellyfin/plugins/Foo_1.0" "icon.png"
      ["banner.jpg", "icon.png"]).2.1 (by decide),
   by decide⟩
